import Mathlib

/-!
Shallow embedding of the jenv configuration populator (env.go).

The repository decodes a JSON/YAML document into a generic tree
(map from string to any) and walks the declared fields of a target record,
resolving environment placeholders of the form ${NAME} / ${NAME:default}
and converting the resolved strings into the declared field types.

Modelling conventions:
- Go strings are Lean Strings; the Go standard-library string helpers
  (strings.HasPrefix, strings.HasSuffix, strings.TrimSpace,
  strings.SplitN(s, ":", 2), strings.Split(tag, ",")[0],
  strings.ReplaceAll removing single quotes) are re-implemented below on
  character list with their documented semantics.
- The generic decoded tree is the inductive JValue; JSON numbers are
  modelled on the integral fragment (an Int), whose fmt %v rendering
  is the decimal string, matching the Go rendering of an integral float64.
- time.Time is the opaque token GoTime; its Go String rendering is a
  formatted date, always non-empty, modelled by renderTime.
- The external parsing collaborators (strconv.Atoi, strconv.ParseInt,
  strconv.ParseFloat, strconv.ParseBool, time.ParseDuration, the
  flexible date.Parse library and strict RFC-3339 time.Parse, and
  json.Marshal for byte blobs) are abstract fields of a Parsers record:
  the repository only dispatches to them.
- The replaceable environment lookup Getenv is a parameter
  env : String -> String; an unset variable yields the empty string,
  exactly as os.Getenv does (getenv is called with no default here).
- reflect-based field walking becomes explicit: FieldKind is the
  declared kind of a field, RecordShape the declared shape of a struct,
  GoValue the current runtime value stored in the target record.
  setFieldValue returns the new value of the field location together
  with an optional error; for nested structs the partially mutated
  value is returned even on error (Go mutates in place through the
  reflect.Value), while for slices and maps the freshly built value is
  discarded on error (field.Set only runs after the loop).
-/

namespace Jenv

/- Single-quote character, written by code point. -/
def squote : Char := Char.ofNat 39

/-- Model of strings.HasPrefix on character lists: listBegWith s p is true
when p is an initial segment of s. -/
def listBegWith : List Char → List Char → Bool
  | _, [] => true
  | [], _ :: _ => false
  | c :: cs, p :: ps => c == p && listBegWith cs ps

/-- Model of strings.HasPrefix. -/
def strBegWith (s pre : String) : Bool := listBegWith s.data pre.data

/-- Model of strings.HasSuffix. -/
def strEndWith (s suf : String) : Bool := listBegWith s.data.reverse suf.data.reverse

/-- Model of strings.TrimSpace: drop whitespace from both ends. -/
def goTrimSpace (s : String) : String :=
  ⟨((s.data.dropWhile Char.isWhitespace).reverse.dropWhile Char.isWhitespace).reverse⟩

/-- Model of strings.SplitN with separator colon and limit 2: the part
before the first colon and, when a colon occurs, the remainder after it. -/
def splitOnFirstColon : List Char → List Char × Option (List Char)
  | [] => ([], none)
  | c :: cs =>
    if c == ':' then ([], some cs)
    else
      let r := splitOnFirstColon cs
      (c :: r.1, r.2)

/-- Model of strings.ReplaceAll(s, single-quote, empty): remove every
single-quote character. -/
def stripQuotes (s : String) : String := ⟨s.data.filter (fun c => c != squote)⟩

/-- Model of strings.Split at commas, first component: the tag text before
the first comma. -/
def tagHead (tag : String) : String := ⟨tag.data.takeWhile (fun c => c != ',')⟩

/-- Opaque token standing for a Go time.Time value. -/
structure GoTime where
  rep : Int
deriving DecidableEq, Repr

/- Generic decoded document node: the values a decoded map[string]any can
hold (string, number, bool, nil, nested sequence or mapping, and a native
time.Time value as YAML decoding can produce). -/
mutual
inductive JValue : Type where
  | str (s : String)
  | num (n : Int)
  | bool (b : Bool)
  | null
  | timeJ (t : GoTime)
  | arr (xs : JList)
  | obj (kvs : JObj)
deriving DecidableEq, Repr
inductive JList : Type where
  | nil
  | cons (v : JValue) (rest : JList)
deriving DecidableEq, Repr
inductive JObj : Type where
  | nil
  | cons (k : String) (v : JValue) (rest : JObj)
deriving DecidableEq, Repr
end

/- Insertion of a string into a sorted list, ordering by String.lt;
fmt prints map keys in sorted order. -/
def insertSorted (s : String) : List String → List String
  | [] => [s]
  | t :: ts => if t < s then t :: insertSorted s ts else s :: t :: ts

/-- Insertion sort on strings. -/
def sortStrings : List String → List String
  | [] => []
  | s :: ss => insertSorted s (sortStrings ss)

/-- Rendering of a GoTime by fmt %v. Modelled: Go formats a time.Time as a
date string such as 2024-02-01 15:04:05 +0000 UTC, always non-empty; we
render the abstract representation after the word time. -/
def renderTime (t : GoTime) : String := "time " ++ toString t.rep

/- Rendering of a decoded node by fmt.Sprintf %v: strings verbatim, numbers
in decimal, booleans as true/false, nil as <nil>, sequences bracketed with
space-separated elements, maps as map[k:v ...] with sorted keys. -/
mutual
def render : JValue → String
  | .str s => s
  | .num n => toString n
  | .bool b => if b then "true" else "false"
  | .null => "<nil>"
  | .timeJ t => renderTime t
  | .arr xs => "[" ++ renderList xs ++ "]"
  | .obj kvs => "map[" ++ String.intercalate " " (sortStrings (renderObjPairs kvs)) ++ "]"
def renderList : JList → String
  | .nil => ""
  | .cons v .nil => render v
  | .cons v (.cons w rest) => render v ++ " " ++ renderList (.cons w rest)
def renderObjPairs : JObj → List String
  | .nil => []
  | .cons k v rest => (k ++ ":" ++ render v) :: renderObjPairs rest
end

/- Placeholder resolver getEnv: render the raw value to a string; when it
is of the form dollar-brace body brace, trim the body, split it at the
first colon into a variable name and optional default, look the name up in
the environment, fall back to the default when the lookup is empty, and
strip single quotes from the result; any other string is returned
unchanged. -/
def getEnv (env : String → String) (rawValue : JValue) : String :=
  let strValue := render rawValue
  if strBegWith strValue "$\x7b" && strEndWith strValue "\x7d" then
    let envVar := goTrimSpace ⟨(strValue.data.drop 2).dropLast⟩
    let parts := splitOnFirstColon envVar.data
    let envValue := env ⟨parts.1⟩
    let envValue :=
      match parts.2 with
      | some d => if envValue == "" then (⟨d⟩ : String) else envValue
      | none => envValue
    stripQuotes envValue
  else strValue

/-- Abstract external parsers the converter dispatches to: strconv.Atoi,
strconv.ParseInt (base 10, 64 bit), strconv.ParseFloat, strconv.ParseBool,
time.ParseDuration (durations as nanosecond counts), the flexible
date.Parse library parser, strict RFC-3339 time.Parse, and json.Marshal
for byte blobs. -/
structure Parsers where
  atoi : String → Except String Int
  parseInt64 : String → Except String Int
  parseFloat : String → Except String Rat
  parseBool : String → Except String Bool
  parseDuration : String → Except String Int
  dateParse : String → Except String GoTime
  parseRFC3339 : String → Except String GoTime
  jsonMarshal : JValue → Except String String

/-- Conversion getEnvValueInt: resolve, empty resolves to zero with no
error, otherwise strconv.Atoi. -/
def getEnvValueInt (P : Parsers) (env : String → String) (rawValue : JValue) :
    Except String Int :=
  let val := getEnv env rawValue
  if val == "" then .ok 0 else P.atoi val

/-- Conversion getEnvValueInt64: resolve, empty resolves to zero, otherwise
strconv.ParseInt of the (re-resolved) string. -/
def getEnvValueInt64 (P : Parsers) (env : String → String) (rawValue : JValue) :
    Except String Int :=
  let val := getEnv env rawValue
  if val == "" then .ok 0 else P.parseInt64 (getEnv env rawValue)

/-- Conversion getEnvValueFloat: resolve, empty resolves to zero, otherwise
strconv.ParseFloat of the (re-resolved) string. -/
def getEnvValueFloat (P : Parsers) (env : String → String) (rawValue : JValue) :
    Except String Rat :=
  let val := getEnv env rawValue
  if val == "" then .ok 0 else P.parseFloat (getEnv env rawValue)

/-- Conversion getEnvValueBool: resolve, empty resolves to false, otherwise
strconv.ParseBool of the (re-resolved) string. -/
def getEnvValueBool (P : Parsers) (env : String → String) (rawValue : JValue) :
    Except String Bool :=
  let val := getEnv env rawValue
  if val == "" then .ok false else P.parseBool (getEnv env rawValue)

/-- Conversion getEnvValueDuration: resolve, empty resolves to the zero
duration, otherwise time.ParseDuration of the (re-resolved) string. -/
def getEnvValueDuration (P : Parsers) (env : String → String) (rawValue : JValue) :
    Except String Int :=
  let val := getEnv env rawValue
  if val == "" then .ok 0 else P.parseDuration (getEnv env rawValue)

/-- Conversion getEnvValueTime: resolve; the empty string yields the zero
time with no error; otherwise a string raw node goes to the flexible
date.Parse, a native time.Time raw node is used as-is, and any other raw
node goes to strict RFC-3339 time.Parse. -/
def getEnvValueTime (P : Parsers) (env : String → String) (rawValue : JValue) :
    Except String GoTime :=
  let val := getEnv env rawValue
  if val == "" then .ok ⟨0⟩
  else
    match rawValue with
    | .str s => P.dateParse (getEnv env (.str s))
    | .timeJ t => .ok t
    | _ => P.parseRFC3339 (getEnv env rawValue)

/- Declared kind of a target field and declared shape of a target record:
the information reflect reads off the struct type. A record shape lists,
per field, the Go field name, the raw json and yaml tags, and the field
kind. bytesK stands for a byte-slice or json.RawMessage field (the special
case inside reflect.Slice); timeK for a time.Time field (the special case
inside reflect.Struct); durationK for a time.Duration field (the special
case inside reflect.Int64); anyK for an interface field. -/
mutual
inductive FieldKind : Type where
  | intK
  | int64K
  | durationK
  | floatK
  | stringK
  | boolK
  | bytesK
  | timeK
  | anyK
  | seqK (elem : FieldKind)
  | mapK (elem : FieldKind)
  | structK (shape : RecordShape)
  | ptrK (elem : FieldKind)
deriving DecidableEq, Repr
inductive RecordShape : Type where
  | nil
  | cons (name jsonTag yamlTag : String) (kind : FieldKind) (rest : RecordShape)
deriving DecidableEq, Repr
end

/- Runtime value held in a target record location. A pointer field is
ptrNil or ptrV of the pointed-to value; an interface field is anyNil or
anyV of the decoded value it holds; a struct value carries its fields as
ordered name-value pairs aligned with the record shape. -/
mutual
inductive GoValue : Type where
  | intV (n : Int)
  | floatV (q : Rat)
  | strV (s : String)
  | boolV (b : Bool)
  | bytesV (b : Option String)
  | timeV (t : GoTime)
  | seqV (xs : GoList)
  | mapV (kvs : GoPairs)
  | structV (fields : GoPairs)
  | anyNil
  | anyV (j : JValue)
  | ptrNil
  | ptrV (v : GoValue)
deriving DecidableEq, Repr
inductive GoList : Type where
  | nil
  | cons (v : GoValue) (rest : GoList)
deriving DecidableEq, Repr
inductive GoPairs : Type where
  | nil
  | cons (k : String) (v : GoValue) (rest : GoPairs)
deriving DecidableEq, Repr
end

/- Zero value of a declared kind: what reflect.New allocates. -/
mutual
def zeroValue : FieldKind → GoValue
  | .intK | .int64K | .durationK => .intV 0
  | .floatK => .floatV 0
  | .stringK => .strV ""
  | .boolK => .boolV false
  | .bytesK => .bytesV none
  | .timeK => .timeV ⟨0⟩
  | .anyK => .anyNil
  | .seqK _ => .seqV .nil
  | .mapK _ => .mapV .nil
  | .structK sh => .structV (zeroFields sh)
  | .ptrK _ => .ptrNil
def zeroFields : RecordShape → GoPairs
  | .nil => .nil
  | .cons name _ _ k rest => .cons name (zeroValue k) (zeroFields rest)
end

/-- Lookup key of a field: the text of the json tag before the first comma,
falling back to the yaml tag when that is empty. -/
def fieldKey (jsonTag yamlTag : String) : String :=
  let key := tagHead jsonTag
  if key == "" then tagHead yamlTag else key

/-- Lookup of a key in a decoded mapping. -/
def lookupJ : JObj → String → Option JValue
  | .nil, _ => none
  | .cons k v rest, key => if k == key then some v else lookupJ rest key

/-- Go type name of a decoded node as fmt %T prints it, used in the
mismatch error messages. -/
def goTypeName : JValue → String
  | .str _ => "string"
  | .num _ => "float64"
  | .bool _ => "bool"
  | .null => "<nil>"
  | .timeJ _ => "time.Time"
  | .arr _ => "[]interface \x7b\x7d"
  | .obj _ => "map[string]interface \x7b\x7d"

/-- Extraction of the field pairs of a struct value; any other value
cannot occur at a struct-kinded location in a well-typed record. -/
def structFields : GoValue → Option GoPairs
  | .structV fs => some fs
  | _ => none

/-- Error wrapping of populateFields: the offending Go field name between
single quotes after the words error setting field. -/
def wrapFieldError (name e : String) : String :=
  "error setting field " ++ squote.toString ++ name ++ squote.toString ++ ": " ++ e

/- Core walker. setFieldValue mirrors the Go setFieldValue: a pointer field
is first overwritten with a freshly allocated zero value of the pointed-to
kind and conversion proceeds through it (a second level of pointer falls to
the unsupported-kind default); the switch then dispatches on the declared
kind. populateFields mirrors the Go populateFields: per declared field,
compute the lookup key from the tags, skip the field when the key is absent
from the mapping, otherwise convert and assign, aborting on the first error
wrapped with the Go field name. setSeqElems and setMapElems are the loops
that build a fresh slice or map whose elements start from the zero value of
the element kind; the built collection is assigned to the field only after
every element converted (on error the caller keeps the prior field value),
whereas a nested struct is populated in place, so its partially mutated
value is kept even on error. -/
mutual
def setFieldValue (P : Parsers) (env : String → String) :
    FieldKind → GoValue → JValue → GoValue × Option String
  | .ptrK t, _cur, raw =>
    let r := setFieldSwitch P env t (zeroValue t) raw
    (.ptrV r.1, r.2)
  | .intK, cur, raw => setFieldSwitch P env .intK cur raw
  | .int64K, cur, raw => setFieldSwitch P env .int64K cur raw
  | .durationK, cur, raw => setFieldSwitch P env .durationK cur raw
  | .floatK, cur, raw => setFieldSwitch P env .floatK cur raw
  | .stringK, cur, raw => setFieldSwitch P env .stringK cur raw
  | .boolK, cur, raw => setFieldSwitch P env .boolK cur raw
  | .bytesK, cur, raw => setFieldSwitch P env .bytesK cur raw
  | .timeK, cur, raw => setFieldSwitch P env .timeK cur raw
  | .anyK, cur, raw => setFieldSwitch P env .anyK cur raw
  | .seqK t, cur, raw => setFieldSwitch P env (.seqK t) cur raw
  | .mapK t, cur, raw => setFieldSwitch P env (.mapK t) cur raw
  | .structK sh, cur, raw => setFieldSwitch P env (.structK sh) cur raw
termination_by k _ _ => (sizeOf k, 2, 0)

def setFieldSwitch (P : Parsers) (env : String → String) :
    FieldKind → GoValue → JValue → GoValue × Option String
  | .intK, cur, raw =>
    match getEnvValueInt P env raw with
    | .ok n => (.intV n, none)
    | .error e => (cur, some e)
  | .durationK, cur, raw =>
    match getEnvValueDuration P env raw with
    | .ok n => (.intV n, none)
    | .error e => (cur, some e)
  | .int64K, cur, raw =>
    match getEnvValueInt64 P env raw with
    | .ok n => (.intV n, none)
    | .error e => (cur, some e)
  | .floatK, cur, raw =>
    match getEnvValueFloat P env raw with
    | .ok q => (.floatV q, none)
    | .error e => (cur, some e)
  | .stringK, _cur, raw => (.strV (getEnv env raw), none)
  | .boolK, cur, raw =>
    match getEnvValueBool P env raw with
    | .ok b => (.boolV b, none)
    | .error e => (cur, some e)
  | .bytesK, cur, raw =>
    if raw = .null then (cur, none)
    else
      match P.jsonMarshal raw with
      | .ok s => (.bytesV (some s), none)
      | .error e => (cur, some e)
  | .seqK t, cur, raw =>
    match raw with
    | .arr xs =>
      let r := setSeqElems P env t xs
      match r.2 with
      | some e => (cur, some e)
      | none => (.seqV r.1, none)
    | _ => (cur, some ("expected slice for field, got " ++ goTypeName raw))
  | .mapK t, cur, raw =>
    match raw with
    | .obj kvs =>
      let r := setMapElems P env t kvs
      match r.2 with
      | some e => (cur, some e)
      | none => (.mapV r.1, none)
    | _ => (cur, some ("expected map for field, got " ++ goTypeName raw))
  | .timeK, cur, raw =>
    match getEnvValueTime P env raw with
    | .ok t => (.timeV t, none)
    | .error e => (cur, some e)
  | .structK sh, cur, raw =>
    match raw with
    | .obj kvs =>
      match structFields cur with
      | some fs =>
        let r := populateFields P env sh fs kvs
        (.structV r.1, r.2)
      | none => (cur, some "invalid struct value")
    | _ => (cur, some ("expected struct map for field, got " ++ goTypeName raw))
  | .anyK, cur, raw =>
    if raw = .null then (cur, none)
    else (.anyV raw, none)
  | .ptrK _, cur, _raw => (cur, some "unsupported field type: ptr")
termination_by k _ _ => (sizeOf k, 1, 0)

def setSeqElems (P : Parsers) (env : String → String) (t : FieldKind) :
    JList → GoList × Option String
  | .nil => (.nil, none)
  | .cons x xs =>
    let r := setFieldValue P env t (zeroValue t) x
    match r.2 with
    | some e => (.cons r.1 .nil, some e)
    | none =>
      let rest := setSeqElems P env t xs
      (.cons r.1 rest.1, rest.2)
termination_by xs => (sizeOf t, 3, sizeOf xs)

def setMapElems (P : Parsers) (env : String → String) (t : FieldKind) :
    JObj → GoPairs × Option String
  | .nil => (.nil, none)
  | .cons k v rest =>
    let r := setFieldValue P env t (zeroValue t) v
    match r.2 with
    | some e => (.nil, some e)
    | none =>
      let rst := setMapElems P env t rest
      (.cons k r.1 rst.1, rst.2)
termination_by kvs => (sizeOf t, 3, sizeOf kvs)

def populateFields (P : Parsers) (env : String → String) :
    RecordShape → GoPairs → JObj → GoPairs × Option String
  | .nil, vals, _ => (vals, none)
  | .cons name jTag yTag k rest, .cons vn v vrest, rawMap =>
    let key := fieldKey jTag yTag
    match lookupJ rawMap key with
    | none =>
      let r := populateFields P env rest vrest rawMap
      (.cons vn v r.1, r.2)
    | some rawValue =>
      let s := setFieldValue P env k v rawValue
      match s.2 with
      | some e =>
        (.cons vn s.1 vrest, some (wrapFieldError name e))
      | none =>
        let r := populateFields P env rest vrest rawMap
        (.cons vn s.1 r.1, r.2)
  | .cons _ _ _ _ _, .nil, _ => (.nil, some "record value shape mismatch")
termination_by sh _ _ => (sizeOf sh, 0, 0)
end

/-! Theorems. -/

/-- Appending strings concatenates their character data. -/
theorem data_append (a b : String) : (a ++ b).data = a.data ++ b.data := rfl

/-- Splitting a colon-free list at the first colon returns the whole list
and no remainder. -/
theorem splitOnFirstColon_of_not_mem (l : List Char) (h : ':' ∉ l) :
    splitOnFirstColon l = (l, none) := by
  induction l with
  | nil => rfl
  | cons c cs ih =>
    have hc : c ≠ ':' := by
      intro hc; exact h (hc ▸ List.mem_cons_self c cs)
    have hcs : ':' ∉ cs := fun hm => h (List.mem_cons_of_mem c hm)
    simp [splitOnFirstColon, hc, ih hcs]

/-- Splitting at the first colon cuts exactly at the first colon when the
part before it is colon-free. -/
theorem splitOnFirstColon_append (l r : List Char) (h : ':' ∉ l) :
    splitOnFirstColon (l ++ ':' :: r) = (l, some r) := by
  induction l with
  | nil => simp [splitOnFirstColon]
  | cons c cs ih =>
    have hc : c ≠ ':' := by
      intro hc; exact h (hc ▸ List.mem_cons_self c cs)
    have hcs : ':' ∉ cs := fun hm => h (List.mem_cons_of_mem c hm)
    simp [splitOnFirstColon, hc, ih hcs]

/-- Resolution of a well-formed placeholder string: getEnv trims the body,
splits it at the first colon, looks the name up, falls back to the default
when the lookup is empty, and strips single quotes. -/
theorem getEnv_placeholder (env : String → String) (body : String)
    (htrim : goTrimSpace body = body) :
    getEnv env (.str ("$\x7b" ++ body ++ "\x7d")) =
      stripQuotes
        (match (splitOnFirstColon body.data).2 with
         | some d =>
           if env ⟨(splitOnFirstColon body.data).1⟩ = ""
           then (⟨d⟩ : String)
           else env ⟨(splitOnFirstColon body.data).1⟩
         | none => env ⟨(splitOnFirstColon body.data).1⟩) := by
  have hdata : ("$\x7b" ++ body ++ "\x7d").data
      = '$' :: '{' :: (body.data ++ ['}']) := by
    simp [data_append]
  have hbeg : strBegWith ("$\x7b" ++ body ++ "\x7d") "$\x7b" = true := by
    simp [strBegWith, hdata, listBegWith]
  have hend : strEndWith ("$\x7b" ++ body ++ "\x7d") "\x7d" = true := by
    simp [strEndWith, hdata, listBegWith]
  have hbody : (((("$\x7b" ++ body ++ "\x7d").data).drop 2).dropLast) = body.data := by
    simp [hdata]
  simp only [getEnv, render, hbeg, hend, Bool.and_self, if_true, hbody]
  have : (⟨body.data⟩ : String) = body := rfl
  rw [this, htrim]
  cases hsplit : (splitOnFirstColon body.data).2 with
  | none => simp [hsplit]
  | some d => simp [hsplit, beq_iff_eq]

/-- C1: for a raw scalar rendering exactly as a placeholder with name and
optional default (name colon-free, body unaffected by trimming), a
non-empty environment lookup of the name is returned with single quotes
stripped regardless of the default; an empty lookup returns the default
with single quotes stripped when one was supplied, and the empty string
when none was. -/
theorem getEnv_resolution_cases (env : String → String) (name dflt : String)
    (hname : ':' ∉ name.data)
    (htrim1 : goTrimSpace name = name)
    (htrim2 : goTrimSpace (name ++ ":" ++ dflt) = name ++ ":" ++ dflt) :
    (env name ≠ "" →
       getEnv env (.str ("$\x7b" ++ name ++ "\x7d")) = stripQuotes (env name) ∧
       getEnv env (.str ("$\x7b" ++ (name ++ ":" ++ dflt) ++ "\x7d"))
         = stripQuotes (env name)) ∧
    (env name = "" →
       getEnv env (.str ("$\x7b" ++ (name ++ ":" ++ dflt) ++ "\x7d"))
         = stripQuotes dflt ∧
       getEnv env (.str ("$\x7b" ++ name ++ "\x7d")) = "") := by
  have hsplit1 : splitOnFirstColon name.data = (name.data, none) :=
    splitOnFirstColon_of_not_mem _ hname
  have hdata : (name ++ ":" ++ dflt).data = name.data ++ ':' :: dflt.data := by
    simp [data_append]
  have hsplit2 : splitOnFirstColon (name ++ ":" ++ dflt).data
      = (name.data, some dflt.data) := by
    rw [hdata]; exact splitOnFirstColon_append _ _ hname
  have heta : (⟨name.data⟩ : String) = name := rfl
  have h1 := getEnv_placeholder env name htrim1
  have h2 := getEnv_placeholder env (name ++ ":" ++ dflt) htrim2
  rw [hsplit1] at h1
  rw [hsplit2] at h2
  simp only [heta] at h1 h2
  refine ⟨fun hne => ⟨?_, ?_⟩, fun heq => ⟨?_, ?_⟩⟩
  · rw [h1]
  · rw [h2]; simp [hne]
  · rw [h2]; simp [heq]
  · rw [h1, heq]; rfl

/-- Witness for C1 at concrete inputs: FOO set to v1 wins over the default,
BAR unset falls back to the default, BAZ unset with no default resolves to
the empty string. -/
theorem getEnv_resolution_cases_witness :
    getEnv (fun n => if n == "FOO" then "v1" else "") (.str "$\x7bFOO:zz\x7d") = "v1" ∧
    getEnv (fun n => if n == "FOO" then "v1" else "") (.str "$\x7bBAR:zz\x7d") = "zz" ∧
    getEnv (fun n => if n == "FOO" then "v1" else "") (.str "$\x7bBAZ\x7d") = "" := by
  refine ⟨?_, ?_, ?_⟩
  · exact ((getEnv_resolution_cases (fun n => if n == "FOO" then "v1" else "")
      "FOO" "zz" (by decide) (by rfl) (by rfl)).1 (by decide)).2
  · exact ((getEnv_resolution_cases (fun n => if n == "FOO" then "v1" else "")
      "BAR" "zz" (by decide) (by rfl) (by rfl)).2 (by rfl)).1
  · exact ((getEnv_resolution_cases (fun n => if n == "FOO" then "v1" else "")
      "BAZ" "zz" (by decide) (by rfl) (by rfl)).2 (by rfl)).2

/-- Environment in which every variable is unset. -/
def env0 : String → String := fun _ => ""

/-- Environment for witnesses: FOO is v1, B is z, every other variable is
unset. -/
def env1 : String → String := fun n =>
  if n == "FOO" then "v1" else if n == "B" then "z" else ""

/-- Parser pack whose parsers all fail: the paths exercised with it never
reach a parser, or record the dispatched error. -/
def P0 : Parsers :=
  ⟨fun _ => .error "p", fun _ => .error "p", fun _ => .error "p", fun _ => .error "p",
   fun _ => .error "p", fun _ => .error "p", fun _ => .error "p", fun _ => .error "p"⟩

/-- C6: when the placeholder of a scalar field resolves to the empty
string, conversion yields the zero value of the declared kind (zero for
the integer kinds and the duration, zero for the float, false for the
boolean, the empty string, the zero timestamp) and reports no error. -/
theorem empty_resolution_zero_values (P : Parsers) (env : String → String)
    (raw : JValue) (cur : GoValue) (h : getEnv env raw = "") :
    setFieldValue P env .intK cur raw = (.intV 0, none) ∧
    setFieldValue P env .int64K cur raw = (.intV 0, none) ∧
    setFieldValue P env .durationK cur raw = (.intV 0, none) ∧
    setFieldValue P env .floatK cur raw = (.floatV 0, none) ∧
    setFieldValue P env .boolK cur raw = (.boolV false, none) ∧
    setFieldValue P env .stringK cur raw = (.strV "", none) ∧
    setFieldValue P env .timeK cur raw = (.timeV ⟨0⟩, none) := by
  refine ⟨?_, ?_, ?_, ?_, ?_, ?_, ?_⟩ <;>
    simp [setFieldValue, setFieldSwitch, getEnvValueInt, getEnvValueInt64,
      getEnvValueDuration, getEnvValueFloat, getEnvValueBool, getEnvValueTime, h]

/-- Witness for C6: an unset variable with no default resolves to the empty
string and every scalar kind converts it to its zero value. -/
theorem empty_resolution_zero_values_witness :
    setFieldValue P0 env0 .intK (.intV 7) (.str "$\x7bX\x7d") = (.intV 0, none) ∧
    setFieldValue P0 env0 .int64K (.intV 7) (.str "$\x7bX\x7d") = (.intV 0, none) ∧
    setFieldValue P0 env0 .durationK (.intV 7) (.str "$\x7bX\x7d") = (.intV 0, none) ∧
    setFieldValue P0 env0 .floatK (.floatV 7) (.str "$\x7bX\x7d") = (.floatV 0, none) ∧
    setFieldValue P0 env0 .boolK (.boolV true) (.str "$\x7bX\x7d") = (.boolV false, none) ∧
    setFieldValue P0 env0 .stringK (.strV "w") (.str "$\x7bX\x7d") = (.strV "", none) ∧
    setFieldValue P0 env0 .timeK (.timeV ⟨5⟩) (.str "$\x7bX\x7d") = (.timeV ⟨0⟩, none) := by
  have h := empty_resolution_zero_values P0 env0 (.str "$\x7bX\x7d") (.intV 7) rfl
  have h2 := empty_resolution_zero_values P0 env0 (.str "$\x7bX\x7d") (.floatV 7) rfl
  have h3 := empty_resolution_zero_values P0 env0 (.str "$\x7bX\x7d") (.boolV true) rfl
  have h4 := empty_resolution_zero_values P0 env0 (.str "$\x7bX\x7d") (.strV "w") rfl
  have h5 := empty_resolution_zero_values P0 env0 (.str "$\x7bX\x7d") (.timeV ⟨5⟩) rfl
  exact ⟨h.1, h.2.1, h.2.2.1, h2.2.2.2.1, h3.2.2.2.2.1, h4.2.2.2.2.2.1, h5.2.2.2.2.2.2⟩

/-- Rendering of a native time value never yields the empty string. -/
theorem renderTime_ne_empty (t : GoTime) : renderTime t ≠ "" := by
  intro h
  have hd := congrArg String.data h
  simp [renderTime, data_append] at hd

/-- Resolution of a native time value returns its rendering unchanged: a
rendered time never matches the placeholder pattern. -/
theorem getEnv_timeJ (env : String → String) (t : GoTime) :
    getEnv env (.timeJ t) = renderTime t := by
  have hd : (renderTime t).data = 't' :: 'i' :: 'm' :: 'e' :: ' ' :: (toString t.rep).data := by
    simp [renderTime, data_append]
  simp [getEnv, render, strBegWith, hd, listBegWith]

/-- Conversion of a timestamp field as the specification claims it: a
native timestamp raw node is used as-is; otherwise the resolved string
(empty resolving to the zero timestamp) is parsed by the flexible parser,
falling back to strict RFC-3339 parsing when the flexible parser fails.
This definition follows the words of the spec and is compared against
getEnvValueTime, which follows the code. -/
def getEnvValueTimeClaimed (P : Parsers) (env : String → String) (rawValue : JValue) :
    Except String GoTime :=
  match rawValue with
  | .timeJ t => .ok t
  | _ =>
    let val := getEnv env rawValue
    if val == "" then .ok ⟨0⟩
    else
      match P.dateParse val with
      | .ok t => .ok t
      | .error _ => P.parseRFC3339 val

/-- Parser pack whose flexible date parser always fails while its strict
RFC-3339 parser succeeds, separating the code from the claimed fallback. -/
def Pfb : Parsers :=
  ⟨fun _ => .error "p", fun _ => .error "p", fun _ => .error "p", fun _ => .error "p",
   fun _ => .error "p", fun _ => .error "flexible", fun _ => .ok ⟨42⟩, fun _ => .error "p"⟩

/-- Counterexample to C2: on a string raw node the code returns the error
of the flexible parser with no RFC-3339 fallback, while the claimed
conversion falls back and succeeds. -/
theorem getEnvValueTime_no_fallback_counterexample :
    getEnvValueTime Pfb env0 (.str "notadate") = .error "flexible" ∧
    getEnvValueTimeClaimed Pfb env0 (.str "notadate") = .ok ⟨42⟩ ∧
    getEnvValueTime Pfb env0 (.str "notadate")
      ≠ getEnvValueTimeClaimed Pfb env0 (.str "notadate") := by
  refine ⟨rfl, rfl, ?_⟩
  intro h
  rw [(rfl : getEnvValueTime Pfb env0 (.str "notadate") = .error "flexible"),
    (rfl : getEnvValueTimeClaimed Pfb env0 (.str "notadate") = .ok ⟨42⟩)] at h
  exact Except.noConfusion h

/-- C2 amended: a raw node that is already a native timestamp is used
as-is; a string raw node whose resolution is non-empty is parsed by the
flexible parser alone, its error returned with no RFC-3339 fallback; the
strict RFC-3339 parser is used exactly for raw nodes that are neither
strings nor native timestamps (here a number) with non-empty resolution. -/
theorem getEnvValueTime_dispatch (P : Parsers) (env : String → String)
    (s : String) (t : GoTime) (n : Int)
    (hs : getEnv env (.str s) ≠ "")
    (hn : getEnv env (.num n) ≠ "") :
    getEnvValueTime P env (.str s) = P.dateParse (getEnv env (.str s)) ∧
    getEnvValueTime P env (.timeJ t) = .ok t ∧
    getEnvValueTime P env (.num n) = P.parseRFC3339 (getEnv env (.num n)) := by
  refine ⟨?_, ?_, ?_⟩
  · simp [getEnvValueTime, hs]
  · simp [getEnvValueTime, getEnv_timeJ, renderTime_ne_empty t]
  · simp [getEnvValueTime, hn]

/-- Witness for the amended C2 at concrete inputs. -/
theorem getEnvValueTime_dispatch_witness :
    getEnvValueTime Pfb env0 (.str "2024") = .error "flexible" ∧
    getEnvValueTime Pfb env0 (.timeJ ⟨9⟩) = .ok ⟨9⟩ ∧
    getEnvValueTime Pfb env0 (.num 3) = .ok ⟨42⟩ := by
  have h := getEnvValueTime_dispatch Pfb env0 "2024" ⟨9⟩ 3 (by decide) (by decide)
  exact ⟨h.1, h.2.1, h.2.2⟩

/-- Record shape with one field whose json and yaml tags are both absent. -/
def taglessShape : RecordShape := .cons "Hidden" "" "" .stringK .nil

/-- Counterexample to C3: a field with both serialization tags absent gets
the empty string as lookup key, so a document containing an empty-string
key does populate it, leaving it different from its zero value. -/
theorem tagless_field_populated_counterexample :
    populateFields P0 env0 taglessShape (zeroFields taglessShape)
        (.cons "" (.str "7") .nil)
      = (.cons "Hidden" (.strV "7") .nil, none) ∧
    (GoValue.strV "7") ≠ zeroValue .stringK := by
  constructor
  · simp [populateFields, setFieldValue, setFieldSwitch, taglessShape, zeroFields,
      zeroValue, fieldKey, tagHead, lookupJ, getEnv, render, strBegWith, listBegWith]
  · decide

/-- C3 amended: with both tags absent the lookup key is the empty string;
the field is left untouched by every document that has no empty-string
key, and is populated from the value at the empty-string key when the
document has one. -/
theorem tagless_field_key_empty (P : Parsers) (env : String → String)
    (n vn : String) (k : FieldKind) (v : GoValue) (doc : JObj)
    (habs : lookupJ doc "" = none) :
    fieldKey "" "" = "" ∧
    populateFields P env (.cons n "" "" k .nil) (.cons vn v .nil) doc
      = (.cons vn v .nil, none) ∧
    (∀ (doc₂ : JObj) (raw : JValue), lookupJ doc₂ "" = some raw →
      populateFields P env (.cons n "" "" k .nil) (.cons vn v .nil) doc₂
        = (.cons vn (setFieldValue P env k v raw).1 .nil,
           (setFieldValue P env k v raw).2.map (wrapFieldError n))) := by
  have hkey : fieldKey "" "" = "" := rfl
  refine ⟨hkey, ?_, ?_⟩
  · simp [populateFields, hkey, habs]
  · intro doc₂ raw hsome
    simp only [populateFields, hkey, hsome]
    cases hset : (setFieldValue P env k v raw).2 with
    | none => simp [hset]
    | some e => simp [hset]

/-- Witness for the amended C3: a document without an empty-string key
leaves the tagless field untouched. -/
theorem tagless_field_key_empty_witness :
    populateFields P0 env0 (.cons "Hidden" "" "" .stringK .nil)
        (.cons "Hidden" (.strV "") .nil) (.cons "a" (.str "x") .nil)
      = (.cons "Hidden" (.strV "") .nil, none) := by
  exact (tagless_field_key_empty P0 env0 "Hidden" "Hidden" .stringK (.strV "")
    (.cons "a" (.str "x") .nil) rfl).2.1

/-- C4: populateFields returns the first conversion error wrapped with the
Go name of the offending field and stops there, leaving every later field
untouched (no accumulation of further errors), while a field converted
successfully before the failure keeps its newly assigned value whatever
happens to the rest of the record (no rollback). -/
theorem populate_first_error_wrapped (P : Parsers) (env : String → String)
    (name jT yT : String) (k : FieldKind) (rest : RecordShape)
    (vn : String) (v : GoValue) (vrest : GoPairs) (doc : JObj) (raw : JValue) :
    (∀ v₁ e, lookupJ doc (fieldKey jT yT) = some raw →
      setFieldValue P env k v raw = (v₁, some e) →
      populateFields P env (.cons name jT yT k rest) (.cons vn v vrest) doc
        = (.cons vn v₁ vrest, some (wrapFieldError name e))) ∧
    (∀ v₁, lookupJ doc (fieldKey jT yT) = some raw →
      setFieldValue P env k v raw = (v₁, none) →
      populateFields P env (.cons name jT yT k rest) (.cons vn v vrest) doc
        = (.cons vn v₁ (populateFields P env rest vrest doc).1,
           (populateFields P env rest vrest doc).2)) := by
  constructor
  · intro v₁ e hlook hset
    simp [populateFields, hlook, hset]
  · intro v₁ hlook hset
    simp [populateFields, hlook, hset]

/-- Witness for C4: field A converts first and keeps its value, field B
then receives a mapping where it declares a sequence, and the call returns
the shape-mismatch error wrapped with the name B while later field C stays
untouched. -/
theorem populate_first_error_wrapped_witness :
    populateFields P0 env0
        (.cons "B" "b" "" (.seqK .stringK)
          (.cons "C" "c" "" .stringK .nil))
        (.cons "B" (.seqV .nil) (.cons "C" (.strV "old") .nil))
        (.cons "b" (.obj .nil) (.cons "c" (.str "new") .nil))
      = (.cons "B" (.seqV .nil) (.cons "C" (.strV "old") .nil),
         some (wrapFieldError "B" ("expected slice for field, got "
           ++ goTypeName (.obj .nil)))) := by
  exact (populate_first_error_wrapped P0 env0 "B" "b" "" (.seqK .stringK)
      (.cons "C" "c" "" .stringK .nil) "B" (.seqV .nil)
      (.cons "C" (.strV "old") .nil)
      (.cons "b" (.obj .nil) (.cons "c" (.str "new") .nil)) (.obj .nil)).1
    (.seqV .nil) ("expected slice for field, got " ++ goTypeName (.obj .nil))
    rfl
    (by simp [setFieldValue, setFieldSwitch])

/-- Value of the field at a position in a record value. -/
def pairsVal : GoPairs → Nat → Option GoValue
  | .nil, _ => none
  | .cons _ v _, 0 => some v
  | .cons _ _ rest, Nat.succ i => pairsVal rest i

/-- Lookup key of the field at a position in a record shape. -/
def shapeKey : RecordShape → Nat → Option String
  | .nil, _ => none
  | .cons _ jT yT _ _, 0 => some (fieldKey jT yT)
  | .cons _ _ _ _ rest, Nat.succ i => shapeKey rest i

/-- Alignment of a record value with a record shape: same field count. -/
def aligned : RecordShape → GoPairs → Bool
  | .nil, .nil => true
  | .cons _ _ _ _ rest, .cons _ _ vrest => aligned rest vrest
  | _, _ => false

/-- Absence from a document of the lookup key of every field of a shape. -/
def allKeysAbsent : RecordShape → JObj → Bool
  | .nil, _ => true
  | .cons _ jT yT _ rest, doc =>
    (lookupJ doc (fieldKey jT yT)).isNone && allKeysAbsent rest doc

/-- C5: a declared field whose lookup key is absent from the input mapping
is skipped: its value in the output record equals its value in the input
record whatever happens around it, and when every key of the shape is
absent the record comes back unchanged with no error. -/
theorem absent_key_skips : ∀ (P : Parsers) (env : String → String)
    (sh : RecordShape) (vals : GoPairs) (doc : JObj),
    (∀ i key, shapeKey sh i = some key → lookupJ doc key = none →
      pairsVal (populateFields P env sh vals doc).1 i = pairsVal vals i) ∧
    (aligned sh vals = true → allKeysAbsent sh doc = true →
      populateFields P env sh vals doc = (vals, none))
  | P, env, .nil, vals, doc => by
    constructor
    · intro i key hk _
      simp [shapeKey] at hk
    · intro _ _
      simp [populateFields]
  | P, env, .cons n jT yT k rest, .nil, doc => by
    constructor
    · intro i key _ _
      simp [populateFields, pairsVal]
    · intro hal _
      simp [aligned] at hal
  | P, env, .cons n jT yT k rest, .cons vn v vrest, doc => by
    have ih := absent_key_skips P env rest vrest doc
    constructor
    · intro i key hk habs
      cases i with
      | zero =>
        simp only [shapeKey, Option.some.injEq] at hk
        subst hk
        simp [populateFields, habs, pairsVal]
      | succ j =>
        simp only [shapeKey] at hk
        cases hl : lookupJ doc (fieldKey jT yT) with
        | none =>
          simp [populateFields, hl, pairsVal, ih.1 j key hk habs]
        | some raw =>
          cases hs : (setFieldValue P env k v raw).2 with
          | none =>
            simp [populateFields, hl, hs, pairsVal, ih.1 j key hk habs]
          | some e =>
            simp [populateFields, hl, hs, pairsVal]
    · intro hal hab
      simp only [allKeysAbsent, Bool.and_eq_true, Option.isNone_iff_eq_none] at hab
      simp only [aligned] at hal
      simp [populateFields, hab.1, ih.2 hal hab.2]
termination_by _ _ sh _ _ => sizeOf sh

/-- Witness for C5: a document whose only key matches no field leaves a
two-field record unchanged, and the field at position zero is untouched. -/
theorem absent_key_skips_witness :
    pairsVal (populateFields P0 env0
        (.cons "A" "a" "" .intK (.cons "B" "b" "" .stringK .nil))
        (.cons "A" (.intV 1) (.cons "B" (.strV "s") .nil))
        (.cons "zz" (.str "x") .nil)).1 0 = some (.intV 1) ∧
    populateFields P0 env0
        (.cons "A" "a" "" .intK (.cons "B" "b" "" .stringK .nil))
        (.cons "A" (.intV 1) (.cons "B" (.strV "s") .nil))
        (.cons "zz" (.str "x") .nil)
      = ((.cons "A" (.intV 1) (.cons "B" (.strV "s") .nil)), none) := by
  have h := absent_key_skips P0 env0
    (.cons "A" "a" "" .intK (.cons "B" "b" "" .stringK .nil))
    (.cons "A" (.intV 1) (.cons "B" (.strV "s") .nil))
    (.cons "zz" (.str "x") .nil)
  exact ⟨by rw [h.1 0 "a" rfl rfl]; rfl, h.2 rfl rfl⟩

/-- Length of a decoded sequence. -/
def lenJ : JList → Nat
  | .nil => 0
  | .cons _ rest => lenJ rest + 1

/-- Length of a Go slice value. -/
def lenG : GoList → Nat
  | .nil => 0
  | .cons _ rest => lenG rest + 1

/-- Element of a decoded sequence at a position. -/
def nthJ : JList → Nat → Option JValue
  | .nil, _ => none
  | .cons x _, 0 => some x
  | .cons _ rest, Nat.succ i => nthJ rest i

/-- Element of a Go slice value at a position. -/
def nthG : GoList → Nat → Option GoValue
  | .nil, _ => none
  | .cons x _, 0 => some x
  | .cons _ rest, Nat.succ i => nthG rest i

/-- Elementwise description of a successful slice build: the built slice
has the length of the raw sequence and its element at every position is
the conversion of the raw element there, each starting from the zero value
of the element kind. -/
theorem setSeqElems_ok_spec : ∀ (P : Parsers) (env : String → String)
    (t : FieldKind) (xs : JList) (ys : GoList),
    setSeqElems P env t xs = (ys, none) →
    lenG ys = lenJ xs ∧
    (∀ i, nthG ys i
      = (nthJ xs i).map (fun x => (setFieldValue P env t (zeroValue t) x).1))
  | P, env, t, .nil, ys => by
    intro h
    simp only [setSeqElems, Prod.mk.injEq] at h
    obtain ⟨h1, -⟩ := h
    subst h1
    refine ⟨rfl, ?_⟩
    intro i
    simp [nthG, nthJ]
  | P, env, t, .cons x xs, ys => by
    intro h
    simp only [setSeqElems] at h
    cases hr : (setFieldValue P env t (zeroValue t) x).2 with
    | some e => rw [hr] at h; simp at h
    | none =>
      rw [hr] at h
      simp only [Prod.mk.injEq] at h
      have ih := setSeqElems_ok_spec P env t xs (setSeqElems P env t xs).1 (by
        rw [← h.2])
      refine ⟨?_, ?_⟩
      · rw [← h.1]; simp [lenG, lenJ, ih.1]
      · intro i
        rw [← h.1]
        cases i with
        | zero => simp [nthG, nthJ]
        | succ j => simp [nthG, nthJ, ih.2 j]
termination_by _ _ _ xs _ => sizeOf xs

/-- C7: a sequence-of-T field converted from a non-sequence raw node fails
with the shape-mismatch error naming the actual kind and the field keeps
its prior value; converted from a sequence whose elements all convert, the
field becomes a slice of the same length whose element at every position
is the conversion of the raw element there, in original order. -/
theorem seq_field_conversion (P : Parsers) (env : String → String)
    (t : FieldKind) (cur : GoValue) :
    (∀ raw : JValue, (∀ xs, raw ≠ .arr xs) →
      setFieldValue P env (.seqK t) cur raw
        = (cur, some ("expected slice for field, got " ++ goTypeName raw))) ∧
    (∀ xs ys, setSeqElems P env t xs = (ys, none) →
      setFieldValue P env (.seqK t) cur (.arr xs) = (.seqV ys, none) ∧
      lenG ys = lenJ xs ∧
      (∀ i, nthG ys i
        = (nthJ xs i).map (fun x => (setFieldValue P env t (zeroValue t) x).1))) := by
  constructor
  · intro raw hraw
    cases raw with
    | arr xs => exact absurd rfl (hraw xs)
    | str s => simp [setFieldValue, setFieldSwitch]
    | num n => simp [setFieldValue, setFieldSwitch]
    | bool b => simp [setFieldValue, setFieldSwitch]
    | null => simp [setFieldValue, setFieldSwitch]
    | timeJ t₂ => simp [setFieldValue, setFieldSwitch]
    | obj kvs => simp [setFieldValue, setFieldSwitch]
  · intro xs ys h
    have hspec := setSeqElems_ok_spec P env t xs ys h
    exact ⟨by simp [setFieldValue, setFieldSwitch, h], hspec.1, hspec.2⟩

/-- Witness for C7: the round-trip of the spec, a sequence of two
placeholder strings with A unset and B set to z, yields the slice of x
then z in order, and a mapping raw node for the same field errors. -/
theorem seq_field_conversion_witness :
    setFieldValue P0 env1 (.seqK .stringK) (.seqV .nil)
        (.arr (.cons (.str "$\x7bA:x\x7d") (.cons (.str "$\x7bB:y\x7d") .nil)))
      = (.seqV (.cons (.strV "x") (.cons (.strV "z") .nil)), none) ∧
    setFieldValue P0 env1 (.seqK .stringK) (.seqV .nil) (.obj .nil)
      = (.seqV .nil, some ("expected slice for field, got "
          ++ goTypeName (.obj .nil))) := by
  constructor
  · exact ((seq_field_conversion P0 env1 .stringK (.seqV .nil)).2
      (.cons (.str "$\x7bA:x\x7d") (.cons (.str "$\x7bB:y\x7d") .nil))
      (.cons (.strV "x") (.cons (.strV "z") .nil))
      (by simp [setSeqElems, setFieldValue, setFieldSwitch, zeroValue, getEnv, render,
        strBegWith, strEndWith, listBegWith, goTrimSpace, splitOnFirstColon,
        stripQuotes, squote, env1])).1
  · exact (seq_field_conversion P0 env1 .stringK (.seqV .nil)).1 (.obj .nil)
      (by intro xs h; exact JValue.noConfusion h)

/-- C9: when any element of a raw sequence or mapping fails to convert,
the slice or map being built is discarded and the field keeps its prior
value, the element error propagating unwrapped; a nested struct field is
instead populated in place, so the partially mutated struct value replaces
the field even when the nested populate reports an error. -/
theorem collection_build_discarded_on_error (P : Parsers) (env : String → String) :
    (∀ (t : FieldKind) (cur : GoValue) (xs : JList) (e : String),
      (setSeqElems P env t xs).2 = some e →
      setFieldValue P env (.seqK t) cur (.arr xs) = (cur, some e)) ∧
    (∀ (t : FieldKind) (cur : GoValue) (kvs : JObj) (e : String),
      (setMapElems P env t kvs).2 = some e →
      setFieldValue P env (.mapK t) cur (.obj kvs) = (cur, some e)) ∧
    (∀ (sh : RecordShape) (fs : GoPairs) (kvs : JObj),
      setFieldValue P env (.structK sh) (.structV fs) (.obj kvs)
        = (.structV (populateFields P env sh fs kvs).1,
           (populateFields P env sh fs kvs).2)) := by
  refine ⟨?_, ?_, ?_⟩
  · intro t cur xs e h
    simp [setFieldValue, setFieldSwitch, h]
  · intro t cur kvs e h
    simp [setFieldValue, setFieldSwitch, h]
  · intro sh fs kvs
    simp [setFieldValue, setFieldSwitch, structFields]

/-- Witness for C9: an integer slice and an integer map each fail on a
non-numeric element and keep their prior values, while a struct whose
second field fails the same way keeps its successfully assigned first
field in place. -/
theorem collection_build_discarded_on_error_witness :
    setFieldValue P0 env0 (.seqK .intK) (.seqV (.cons (.intV 9) .nil))
        (.arr (.cons (.str "abc") .nil))
      = (.seqV (.cons (.intV 9) .nil), some "p") ∧
    setFieldValue P0 env0 (.mapK .intK) (.mapV .nil)
        (.obj (.cons "k" (.str "abc") .nil))
      = (.mapV .nil, some "p") ∧
    setFieldValue P0 env1
        (.structK (.cons "A" "a" "" .stringK (.cons "B" "b" "" .intK .nil)))
        (.structV (.cons "A" (.strV "") (.cons "B" (.intV 0) .nil)))
        (.obj (.cons "a" (.str "x") (.cons "b" (.str "abc") .nil)))
      = (.structV (.cons "A" (.strV "x") (.cons "B" (.intV 0) .nil)),
         some (wrapFieldError "B" "p")) := by
  have h := collection_build_discarded_on_error P0 env0
  have h1 := collection_build_discarded_on_error P0 env1
  refine ⟨?_, ?_, ?_⟩
  · exact h.1 .intK (.seqV (.cons (.intV 9) .nil)) (.cons (.str "abc") .nil) "p"
      (by simp [setSeqElems, setFieldValue, setFieldSwitch, zeroValue, getEnvValueInt,
        getEnv, render, strBegWith, listBegWith, P0])
  · exact h.2.1 .intK (.mapV .nil) (.cons "k" (.str "abc") .nil) "p"
      (by simp [setMapElems, setFieldValue, setFieldSwitch, zeroValue, getEnvValueInt,
        getEnv, render, strBegWith, listBegWith, P0])
  · rw [h1.2.2 (.cons "A" "a" "" .stringK (.cons "B" "b" "" .intK .nil))
      (.cons "A" (.strV "") (.cons "B" (.intV 0) .nil))
      (.cons "a" (.str "x") (.cons "b" (.str "abc") .nil))]
    simp [populateFields, setFieldValue, setFieldSwitch, fieldKey, tagHead, lookupJ,
      getEnvValueInt, getEnv, render, strBegWith, strEndWith, listBegWith, goTrimSpace,
      splitOnFirstColon, stripQuotes, squote, env1, P0]

/-- C10: a pointer field reached by setFieldValue is first overwritten by a
fresh zero allocation of the pointed-to kind, through which conversion then
proceeds: the outcome is the conversion of the zero value, is independent
of the prior pointer value (which is discarded), and the resulting pointer
is non-nil even when the conversion reports an error. -/
theorem ptr_field_fresh_allocation (P : Parsers) (env : String → String)
    (t : FieldKind) (cur : GoValue) (raw : JValue) :
    setFieldValue P env (.ptrK t) cur raw
      = (.ptrV (setFieldSwitch P env t (zeroValue t) raw).1,
         (setFieldSwitch P env t (zeroValue t) raw).2) ∧
    (∀ cur₂, setFieldValue P env (.ptrK t) cur raw
      = setFieldValue P env (.ptrK t) cur₂ raw) ∧
    (setFieldValue P env (.ptrK t) cur raw).1 ≠ .ptrNil := by
  refine ⟨by simp [setFieldValue], fun cur₂ => by simp [setFieldValue], ?_⟩
  simp [setFieldValue]

/- Idempotence development: a conversion that succeeded, applied again to
the value it produced, succeeds with the same value; scalar conversions do
not read the prior field value, slices and maps are rebuilt from the raw
node alone, a nested struct repopulates to itself field by field, and a
pointer field is rebuilt from a fresh zero allocation either time. -/
mutual

theorem setFieldSwitch_idem : ∀ (P : Parsers) (env : String → String)
    (k : FieldKind) (cur v₁ : GoValue) (raw : JValue),
    setFieldSwitch P env k cur raw = (v₁, none) →
    setFieldSwitch P env k v₁ raw = (v₁, none)
  | P, env, .intK, cur, v₁, raw => by
    intro h
    cases hI : getEnvValueInt P env raw with
    | ok n =>
      simp only [setFieldSwitch, hI] at h ⊢
      simp only [Prod.mk.injEq, and_true] at h
      simp [h]
    | error e => simp [setFieldSwitch, hI] at h
  | P, env, .int64K, cur, v₁, raw => by
    intro h
    cases hI : getEnvValueInt64 P env raw with
    | ok n =>
      simp only [setFieldSwitch, hI] at h ⊢
      simp only [Prod.mk.injEq, and_true] at h
      simp [h]
    | error e => simp [setFieldSwitch, hI] at h
  | P, env, .durationK, cur, v₁, raw => by
    intro h
    cases hI : getEnvValueDuration P env raw with
    | ok n =>
      simp only [setFieldSwitch, hI] at h ⊢
      simp only [Prod.mk.injEq, and_true] at h
      simp [h]
    | error e => simp [setFieldSwitch, hI] at h
  | P, env, .floatK, cur, v₁, raw => by
    intro h
    cases hI : getEnvValueFloat P env raw with
    | ok q =>
      simp only [setFieldSwitch, hI] at h ⊢
      simp only [Prod.mk.injEq, and_true] at h
      simp [h]
    | error e => simp [setFieldSwitch, hI] at h
  | P, env, .stringK, cur, v₁, raw => by
    intro h
    simp only [setFieldSwitch] at h ⊢
    exact h
  | P, env, .boolK, cur, v₁, raw => by
    intro h
    cases hI : getEnvValueBool P env raw with
    | ok b =>
      simp only [setFieldSwitch, hI] at h ⊢
      simp only [Prod.mk.injEq, and_true] at h
      simp [h]
    | error e => simp [setFieldSwitch, hI] at h
  | P, env, .timeK, cur, v₁, raw => by
    intro h
    cases hI : getEnvValueTime P env raw with
    | ok t =>
      simp only [setFieldSwitch, hI] at h ⊢
      simp only [Prod.mk.injEq, and_true] at h
      simp [h]
    | error e => simp [setFieldSwitch, hI] at h
  | P, env, .bytesK, cur, v₁, raw => by
    intro h
    by_cases hn : raw = .null
    · simp only [setFieldSwitch, if_pos hn] at h ⊢
    · cases hm : P.jsonMarshal raw with
      | ok s =>
        simp only [setFieldSwitch, if_neg hn, hm] at h ⊢
        simp only [Prod.mk.injEq, and_true] at h
        simp [h]
      | error e => simp [setFieldSwitch, if_neg hn, hm] at h
  | P, env, .anyK, cur, v₁, raw => by
    intro h
    by_cases hn : raw = .null
    · simp only [setFieldSwitch, if_pos hn] at h ⊢
    · simp only [setFieldSwitch, if_neg hn] at h ⊢
      exact h
  | P, env, .seqK t, cur, v₁, raw => by
    intro h
    cases raw with
    | arr xs =>
      cases hr : (setSeqElems P env t xs).2 with
      | some e => simp [setFieldSwitch, hr] at h
      | none =>
        simp only [setFieldSwitch, hr] at h ⊢
        simp only [Prod.mk.injEq, and_true] at h
        simp [h]
    | str s => simp [setFieldSwitch] at h
    | num n => simp [setFieldSwitch] at h
    | bool b => simp [setFieldSwitch] at h
    | null => simp [setFieldSwitch] at h
    | timeJ t₂ => simp [setFieldSwitch] at h
    | obj kvs => simp [setFieldSwitch] at h
  | P, env, .mapK t, cur, v₁, raw => by
    intro h
    cases raw with
    | obj kvs =>
      cases hr : (setMapElems P env t kvs).2 with
      | some e => simp [setFieldSwitch, hr] at h
      | none =>
        simp only [setFieldSwitch, hr] at h ⊢
        simp only [Prod.mk.injEq, and_true] at h
        simp [h]
    | str s => simp [setFieldSwitch] at h
    | num n => simp [setFieldSwitch] at h
    | bool b => simp [setFieldSwitch] at h
    | null => simp [setFieldSwitch] at h
    | timeJ t₂ => simp [setFieldSwitch] at h
    | arr xs => simp [setFieldSwitch] at h
  | P, env, .structK sh, cur, v₁, raw => by
    intro h
    cases raw with
    | obj kvs =>
      cases hf : structFields cur with
      | some fs =>
        cases hp : populateFields P env sh fs kvs with
        | mk fs₁ err =>
          simp only [setFieldSwitch, hf, hp] at h
          cases err with
          | some e => simp at h
          | none =>
            simp only [Prod.mk.injEq, and_true] at h
            have hidem := populateFields_idem P env sh fs fs₁ kvs hp
            rw [← h]
            simp only [setFieldSwitch, structFields, hidem]
      | none => simp [setFieldSwitch, hf] at h
    | str s => simp [setFieldSwitch] at h
    | num n => simp [setFieldSwitch] at h
    | bool b => simp [setFieldSwitch] at h
    | null => simp [setFieldSwitch] at h
    | timeJ t₂ => simp [setFieldSwitch] at h
    | arr xs => simp [setFieldSwitch] at h
  | P, env, .ptrK t, cur, v₁, raw => by
    intro h
    simp [setFieldSwitch] at h
termination_by _ _ k _ _ _ => (sizeOf k, 0)

theorem setFieldValue_idem : ∀ (P : Parsers) (env : String → String)
    (k : FieldKind) (cur v₁ : GoValue) (raw : JValue),
    setFieldValue P env k cur raw = (v₁, none) →
    setFieldValue P env k v₁ raw = (v₁, none)
  | P, env, .ptrK t, cur, v₁, raw => by
    intro h
    simp only [setFieldValue] at h ⊢
    exact h
  | P, env, .intK, cur, v₁, raw => by
    intro h
    simp only [setFieldValue] at h ⊢
    exact setFieldSwitch_idem P env .intK cur v₁ raw h
  | P, env, .int64K, cur, v₁, raw => by
    intro h
    simp only [setFieldValue] at h ⊢
    exact setFieldSwitch_idem P env .int64K cur v₁ raw h
  | P, env, .durationK, cur, v₁, raw => by
    intro h
    simp only [setFieldValue] at h ⊢
    exact setFieldSwitch_idem P env .durationK cur v₁ raw h
  | P, env, .floatK, cur, v₁, raw => by
    intro h
    simp only [setFieldValue] at h ⊢
    exact setFieldSwitch_idem P env .floatK cur v₁ raw h
  | P, env, .stringK, cur, v₁, raw => by
    intro h
    simp only [setFieldValue] at h ⊢
    exact setFieldSwitch_idem P env .stringK cur v₁ raw h
  | P, env, .boolK, cur, v₁, raw => by
    intro h
    simp only [setFieldValue] at h ⊢
    exact setFieldSwitch_idem P env .boolK cur v₁ raw h
  | P, env, .bytesK, cur, v₁, raw => by
    intro h
    simp only [setFieldValue] at h ⊢
    exact setFieldSwitch_idem P env .bytesK cur v₁ raw h
  | P, env, .timeK, cur, v₁, raw => by
    intro h
    simp only [setFieldValue] at h ⊢
    exact setFieldSwitch_idem P env .timeK cur v₁ raw h
  | P, env, .anyK, cur, v₁, raw => by
    intro h
    simp only [setFieldValue] at h ⊢
    exact setFieldSwitch_idem P env .anyK cur v₁ raw h
  | P, env, .seqK t, cur, v₁, raw => by
    intro h
    simp only [setFieldValue] at h ⊢
    exact setFieldSwitch_idem P env (.seqK t) cur v₁ raw h
  | P, env, .mapK t, cur, v₁, raw => by
    intro h
    simp only [setFieldValue] at h ⊢
    exact setFieldSwitch_idem P env (.mapK t) cur v₁ raw h
  | P, env, .structK sh, cur, v₁, raw => by
    intro h
    simp only [setFieldValue] at h ⊢
    exact setFieldSwitch_idem P env (.structK sh) cur v₁ raw h
termination_by _ _ k _ _ _ => (sizeOf k, 1)

theorem populateFields_idem : ∀ (P : Parsers) (env : String → String)
    (sh : RecordShape) (vals vals₁ : GoPairs) (doc : JObj),
    populateFields P env sh vals doc = (vals₁, none) →
    populateFields P env sh vals₁ doc = (vals₁, none)
  | P, env, .nil, vals, vals₁, doc => by
    intro h
    simp only [populateFields, Prod.mk.injEq, and_true] at h
    subst h
    simp [populateFields]
  | P, env, .cons n jT yT k rest, .nil, vals₁, doc => by
    intro h
    simp [populateFields] at h
  | P, env, .cons n jT yT k rest, .cons vn v vrest, vals₁, doc => by
    intro h
    cases hl : lookupJ doc (fieldKey jT yT) with
    | none =>
      cases hp : populateFields P env rest vrest doc with
      | mk r1 err =>
        simp only [populateFields, hl, hp] at h
        cases err with
        | some e => simp at h
        | none =>
          simp only [Prod.mk.injEq, and_true] at h
          have ih := populateFields_idem P env rest vrest r1 doc hp
          rw [← h]
          simp only [populateFields, hl, ih]
    | some raw =>
      cases hs : setFieldValue P env k v raw with
      | mk s1 serr =>
        simp only [populateFields, hl, hs] at h
        cases serr with
        | some e => simp at h
        | none =>
          cases hp : populateFields P env rest vrest doc with
          | mk r1 err =>
            rw [hp] at h
            cases err with
            | some e => simp at h
            | none =>
              simp only [Prod.mk.injEq, and_true] at h
              have hsv := setFieldValue_idem P env k v s1 raw hs
              have ih := populateFields_idem P env rest vrest r1 doc hp
              rw [← h]
              simp only [populateFields, hl, hsv, ih]
termination_by _ _ sh _ _ _ => (sizeOf sh, 2)

end

/-- C8: with the document and the environment state fixed, population is
deterministic (populateFields is a pure function of record, document and
environment) and idempotent: after a successful call, calling again on the
resulting record yields that same record and no error. -/
theorem populate_idempotent (P : Parsers) (env : String → String)
    (sh : RecordShape) (vals vals₁ : GoPairs) (doc : JObj)
    (h : populateFields P env sh vals doc = (vals₁, none)) :
    populateFields P env sh vals doc = (vals₁, none) ∧
    populateFields P env sh vals₁ doc = (vals₁, none) :=
  ⟨h, populateFields_idem P env sh vals vals₁ doc h⟩

/-- Witness for C8: populating a one-field record resolves FOO to v1, and
populating the result again leaves it unchanged. -/
theorem populate_idempotent_witness :
    populateFields P0 env1 (.cons "A" "a" "" .stringK .nil)
        (.cons "A" (.strV "v1") .nil) (.cons "a" (.str "$\x7bFOO\x7d") .nil)
      = (.cons "A" (.strV "v1") .nil, none) :=
  (populate_idempotent P0 env1 (.cons "A" "a" "" .stringK .nil)
    (.cons "A" (.strV "") .nil) (.cons "A" (.strV "v1") .nil)
    (.cons "a" (.str "$\x7bFOO\x7d") .nil)
    (by simp [populateFields, setFieldValue, setFieldSwitch, fieldKey, tagHead,
      lookupJ, getEnv, render, strBegWith, strEndWith, listBegWith, goTrimSpace,
      splitOnFirstColon, stripQuotes, squote, env1])).2
